import Mathlib

/-!
# Verification of the Twilio SMS driver (`twilio.go`)

A shallow embedding of the phone-number validator `Phone.Valid`, of the regular
expression `phoneRegex` it consults, and of the webhook handler `handlerTwilio`.

A Go string is a sequence of bytes: `len(p)` counts bytes and `p[i]` is a byte.
Strings are therefore lists of byte values.  Every atom of `phoneRegex` is an
ASCII class, so a byte outside ASCII can never be consumed by it and matching
byte by byte agrees with matching rune by rune.
-/

namespace Twilio

/-! ## Strings -/

/-- The bytes of an ASCII string literal. -/
def ascii (s : String) : List Nat := s.toList.map Char.toNat

/-! ## The regular expression engine (the fragment of `regexp` that `phoneRegex` uses) -/

/-- Syntax of the regular expressions used by the driver. -/
inductive Regex where
  /-- The assertion `^`: at the beginning of the text. -/
  | beginText : Regex
  /-- The assertion `$` (no `m` flag): at the end of the text. -/
  | endText : Regex
  /-- An escaped literal byte such as `\+`. -/
  | lit (c : Nat) : Regex
  /-- A character range `[lo-hi]`. -/
  | range (lo hi : Nat) : Regex
  /-- The Perl class `\d`, which is `[0-9]`. -/
  | digit : Regex
  /-- Zero or one: `r?`. -/
  | quest (r : Regex) : Regex
  /-- Counted repetition `r{min,max}`. -/
  | rep (r : Regex) (min max : Nat) : Regex
  /-- Concatenation. -/
  | cat (r₁ r₂ : Regex) : Regex

/-- A position in the subject text: the offset reached and the bytes still unread. -/
abbrev Cursor := Nat × List Nat

/-- Consume one byte satisfying `ok`. -/
def stepClass (ok : Nat → Bool) : Cursor → List Cursor
  | (i, c :: t) => if ok c then [(i + 1, t)] else []
  | (_, []) => []

/-- All cursors reachable by between `min` and `max` iterations of `f`. -/
def repeatRun (f : Cursor → List Cursor) : Nat → Nat → Cursor → List Cursor
  | min, 0, st => if min = 0 then [st] else []
  | min, k + 1, st =>
    (f st).flatMap (repeatRun f (min - 1) k) ++ (if min = 0 then [st] else [])

/-- All cursors at which a match of `r` starting at the given cursor can end. -/
def run : Regex → Cursor → List Cursor
  | .beginText, st => if st.1 = 0 then [st] else []
  | .endText, st => if st.2.isEmpty then [st] else []
  | .lit c, st => stepClass (fun b => b == c) st
  | .range lo hi, st => stepClass (fun b => decide (lo ≤ b) && decide (b ≤ hi)) st
  | .digit, st => stepClass (fun b => decide (48 ≤ b) && decide (b ≤ 57)) st
  | .quest r, st => run r st ++ [st]
  | .rep r min max, st => repeatRun (run r) min max st
  | .cat r₁ r₂, st => (run r₁ st).flatMap (run r₂)

/-- `(*Regexp).MatchString`: the text contains a match, starting at any offset. -/
def MatchString (re : Regex) (s : List Nat) : Bool :=
  (List.range (s.length + 1)).any fun i => !(run re (i, s.drop i)).isEmpty

/-- The pattern `^\+?[1-9]\d{1,14}$` (`'+'` is 43, `'1'` is 49, `'9'` is 57). -/
def phoneRegex : Regex :=
  .cat .beginText
    (.cat (.quest (.lit 43))
      (.cat (.range 49 57)
        (.cat (.rep .digit 1 14) .endText)))

/-! ## `Phone.Valid` -/

/-- A phone number is a string. -/
abbrev Phone := List Nat

def errFormat : String := "invalid phone number format: must have E.164 formatting"
def errInternational : String := "unsupported international number"
def errPlus : String := "first character in phone number must be +"

/-- The Go expression `a && b` whose right operand indexes the string: `b` is
evaluated only when `a` holds, and is `none` when the index is out of range. -/
def andThen (a : Bool) (b : Option Bool) : Option Bool :=
  if a then b else some false

/-- `Phone.Valid`.  The result is `none` when an index expression panics, and
otherwise the pair `(valid, err)` with `err = none` for the `nil` error. -/
def Valid (p : Phone) : Option (Bool × Option String) :=
  if p.length < 10 || p.length > 20 || !MatchString phoneRegex p then
    some (false, some errFormat)
  else
    match andThen (p.length == 11) (p[0]?.map fun b => b != 49) with
    | none => none
    | some true => some (false, some errInternational)
    | some false =>
      match p[0]?.map fun b => b != 43 with
      | none => none
      | some true => some (false, some errPlus)
      | some false =>
        match andThen (p.length == 12) (p[1]?.map fun b => b != 49) with
        | none => none
        | some true => some (false, some errInternational)
        | some false => some (true, none)

/-! ## The shape accepted by `phoneRegex`, stated directly -/

/-- A decimal digit, `'0'` to `'9'`. -/
def isDigit (b : Nat) : Bool := decide (48 ≤ b) && decide (b ≤ 57)

/-- A nonzero decimal digit, `'1'` to `'9'`. -/
def isNonzeroDigit (b : Nat) : Bool := decide (49 ≤ b) && decide (b ≤ 57)

/-- Between `lo` and `hi` decimal digits of which the first is `1`-`9`. -/
def digitString (lo hi : Nat) (d : List Nat) : Bool :=
  decide (lo ≤ d.length) && decide (d.length ≤ hi) && d.all isDigit &&
    (d.head?.map isNonzeroDigit).getD false

/-- An optional leading `+`, then 2 to 15 decimal digits whose first digit is `1`-`9`. -/
def e164Shape (s : List Nat) : Bool :=
  match s with
  | 43 :: d => digitString 2 15 d
  | d => digitString 2 15 d

/-- The validator as the specification words it: five ordered checks, the first
failing one deciding the result. -/
def ValidSpec (s : List Nat) : Bool × Option String :=
  if s.length < 10 ∨ s.length > 20 ∨ e164Shape s = false then
    (false, some "invalid phone number format: must have E.164 formatting")
  else if s.length = 11 ∧ s[0]? ≠ some 49 then
    (false, some "unsupported international number")
  else if s[0]? ≠ some 43 then
    (false, some "first character in phone number must be +")
  else if s.length = 12 ∧ s[1]? ≠ some 49 then
    (false, some "unsupported international number")
  else
    (true, none)

/-! ## The webhook handler -/

/-- `TwilioResp`: marshalled as the element `Response` (the `XMLName` field), with
one data field, `Message`, which carries no struct tag. -/
structure TwilioResp where
  Message : List Nat
deriving DecidableEq

/-- The zero value `TwilioResp{}`: every field holds its zero value. -/
def TwilioResp.zero : TwilioResp := { Message := [] }

/-- The text substituted when processing fails. -/
def fallbackText : List Nat :=
  ascii "Something went wrong with my wiring... I'll get that fixed up soon."

/-- `http.StatusOK`. -/
def StatusOK : Nat := 200

/-- What `c.XML` puts on the wire: a status code and a body. -/
structure Sent where
  status : Nat
  body : List Nat
deriving DecidableEq

/-- The errors `handlerTwilio` can return: `core.JSONError` applied to a cause. -/
inductive HandlerError where
  | jsonError (cause : String) : HandlerError
deriving DecidableEq

/-- `xml.Header`: the XML declaration and a newline. -/
def xmlHeader : List Nat := ascii "<?xml version=\"1.0\" encoding=\"UTF-8\"?>\n"

/-- `c.XML(code, resp)`: marshal the value; a marshalling error is returned and
nothing is written; otherwise the status is written, then `xml.Header`, then the
marshalled bytes.  The marshaller is a parameter. -/
def contextXML (marshal : TwilioResp → Except String (List Nat)) (code : Nat)
    (resp : TwilioResp) : Option Sent × Option String :=
  match marshal resp with
  | .ok b => (some { status := code, body := xmlHeader ++ b }, none)
  | .error e => (none, some e)

/-- What one run of the handler does: the value it hands to `c.XML`, what was
written, and the error it returns. -/
structure Outcome where
  resp : TwilioResp
  written : Option Sent
  err : Option HandlerError
deriving DecidableEq

/-- `handlerTwilio`.  `processText` is the pair `(ret, err)` that
`core.ProcessText` returned for the request. -/
def handlerTwilio (processText : List Nat × Option String)
    (marshal : TwilioResp → Except String (List Nat)) : Outcome :=
  let ret := match processText.2 with
    | some _ => fallbackText
    | none => processText.1
  let resp : TwilioResp := if ret.length = 0 then TwilioResp.zero else { Message := ret }
  match contextXML marshal StatusOK resp with
  | (w, some e) => { resp := resp, written := w, err := some (.jsonError e) }
  | (w, none) => { resp := resp, written := w, err := none }

/-- A struct field as `encoding/xml` sees it: the element name, whether its tag
carries the `omitempty` option, and its character data. -/
structure XmlField where
  name : List Nat
  omitempty : Bool
  value : List Nat

/-- Marshalling of one string field by `encoding/xml`: a field is left out only
when its tag has `omitempty` and its value is empty; otherwise a start tag, the
escaped character data and an end tag are written.  The escaping of character
data is a parameter. -/
def marshalField (escapeText : List Nat → List Nat) (f : XmlField) : List Nat :=
  if f.omitempty && f.value.isEmpty then []
  else ascii "<" ++ f.name ++ ascii ">" ++ escapeText f.value ++ ascii "</" ++ f.name ++ ascii ">"

/-- Marshalling of a struct by `encoding/xml`: the element named by `XMLName`
around the marshalled fields. -/
def marshalElement (escapeText : List Nat → List Nat) (name : List Nat)
    (fields : List XmlField) : List Nat :=
  ascii "<" ++ name ++ ascii ">" ++ fields.flatMap (marshalField escapeText) ++
    ascii "</" ++ name ++ ascii ">"

/-- `xml.Marshal` on a `TwilioResp`: element `Response`, field `Message` declared
without a tag, hence without `omitempty`. -/
def xmlMarshal (escapeText : List Nat → List Nat) (r : TwilioResp) :
    Except String (List Nat) :=
  .ok (marshalElement escapeText (ascii "Response")
    [{ name := ascii "Message", omitempty := false, value := r.Message }])

/-- What `encoding/xml` writes for one byte of character data: `"`, the
apostrophe, `&`, `<`, `>`, tab, newline and carriage return become character
references; any other control character, which lies outside the XML character
range, becomes U+FFFD; every other byte is copied.  Bytes from 128 up are parts
of multi-byte runes and are copied, as the library does with well-formed UTF-8
text inside the XML character range. -/
def escapeByte (b : Nat) : List Nat :=
  if b = 34 then ascii "&#34;"
  else if b = 39 then ascii "&#39;"
  else if b = 38 then ascii "&amp;"
  else if b = 60 then ascii "&lt;"
  else if b = 62 then ascii "&gt;"
  else if b = 9 then ascii "&#x9;"
  else if b = 10 then ascii "&#xA;"
  else if b = 13 then ascii "&#xD;"
  else if b < 32 then [239, 191, 189]
  else [b]

/-- The escaping `encoding/xml` applies to the character data of a field. -/
def escapeText (s : List Nat) : List Nat := s.flatMap escapeByte

/-! ## Auxiliary definitions for the proofs -/

/-- Some cursor of the list is at the end of the text. -/
def atEnd (l : List Cursor) : Bool := l.any fun st => st.2.isEmpty

/-- The part of `phoneRegex` after the optional plus sign: `[1-9]\d{1,14}$`. -/
def phoneDigits : Regex :=
  .cat (.range 49 57) (.cat (.rep .digit 1 14) .endText)

/-! ## Facts about the engine -/

theorem flatMap_endText_isEmpty (l : List Cursor) :
    (l.flatMap (run .endText)).isEmpty = !atEnd l := by
  induction l with
  | nil => rfl
  | cons st l ih =>
    have ih2 : atEnd l = !(l.flatMap (run .endText)).isEmpty := by rw [ih]; simp
    obtain ⟨i, t⟩ := st
    cases t with
    | nil => simp [run, atEnd]
    | cons c t =>
      have e : atEnd ((i, c :: t) :: l) = atEnd l := by simp [atEnd]
      rw [e, ih2]
      simp [run]

theorem atEnd_repeat_digit (n : Nat) : ∀ (m i : Nat) (t : List Nat),
    atEnd (repeatRun (run .digit) m n (i, t)) =
      (decide (m ≤ t.length) && decide (t.length ≤ n) && t.all isDigit) := by
  induction n with
  | zero =>
    intro m i t
    cases t with
    | nil => by_cases h : m = 0 <;> simp [repeatRun, atEnd, h]
    | cons c t => by_cases h : m = 0 <;> simp [repeatRun, atEnd, h]
  | succ k ih =>
    intro m i t
    cases t with
    | nil => by_cases h : m = 0 <;> simp [repeatRun, atEnd, run, stepClass, h]
    | cons c t =>
      have key : ∀ l₁ l₂ : List Cursor, atEnd (l₁ ++ l₂) = (atEnd l₁ || atEnd l₂) := by
        intro l₁ l₂; simp [atEnd]
      have tail : atEnd (if m = 0 then [((i, c :: t) : Cursor)] else []) = false := by
        by_cases h : m = 0 <;> simp [atEnd, h]
      rw [repeatRun, key, tail, Bool.or_false]
      by_cases hc : isDigit c
      · have hr : run .digit (i, c :: t) = [(i + 1, t)] := by
          simp only [isDigit] at hc
          simp [run, stepClass, hc]
        rw [hr, List.flatMap_cons, List.flatMap_nil, List.append_nil, ih]
        simp only [List.all_cons, hc, Bool.true_and, List.length_cons]
        have e1 : decide (m - 1 ≤ t.length) = decide (m ≤ t.length + 1) := by
          simp only [decide_eq_decide]; omega
        have e2 : decide (t.length ≤ k) = decide (t.length + 1 ≤ k + 1) := by
          simp only [decide_eq_decide]; omega
        rw [e1, e2]
      · have hr : run .digit (i, c :: t) = [] := by
          simp only [isDigit] at hc
          simp [run, stepClass, hc]
        rw [hr]
        simp [atEnd, hc]

theorem run_phoneDigits (i : Nat) (t : List Nat) :
    (run phoneDigits (i, t)).isEmpty = !digitString 2 15 t := by
  cases t with
  | nil => simp [phoneDigits, run, stepClass, digitString]
  | cons c t =>
    by_cases hc : isNonzeroDigit c
    · have hd : isDigit c = true := by
        simp only [isNonzeroDigit, isDigit, Bool.and_eq_true, decide_eq_true_eq] at hc ⊢
        omega
      have hr : run (.range 49 57) (i, c :: t) = [(i + 1, t)] := by
        simp only [isNonzeroDigit] at hc
        simp [run, stepClass, hc]
      have e1 : decide (1 ≤ t.length) = decide (2 ≤ t.length + 1) := by
        simp only [decide_eq_decide]; omega
      have e2 : decide (t.length ≤ 14) = decide (t.length + 1 ≤ 15) := by
        simp only [decide_eq_decide]; omega
      rw [phoneDigits, run, hr, List.flatMap_cons, List.flatMap_nil, List.append_nil, run, run,
        flatMap_endText_isEmpty, atEnd_repeat_digit, e1, e2]
      simp [digitString, hc, hd]
    · have hr : run (.range 49 57) (i, c :: t) = [] := by
        simp only [isNonzeroDigit] at hc
        simp [run, stepClass, hc]
      rw [phoneDigits, run, hr]
      simp [digitString, hc]

theorem run_phoneDigits_nil_iff (i : Nat) (t : List Nat) :
    run phoneDigits (i, t) = [] ↔ digitString 2 15 t = false := by
  have h := run_phoneDigits i t
  rw [← List.isEmpty_iff, h]
  cases digitString 2 15 t <;> simp

theorem run_quest_plus (i : Nat) (s : List Nat) :
    run (.quest (.lit 43)) (i, s) =
      match s with
      | 43 :: t => [(i + 1, t), (i, s)]
      | _ => [(i, s)] := by
  cases s with
  | nil => simp [run, stepClass]
  | cons c t =>
    by_cases hc : c = 43
    · subst hc
      simp [run, stepClass]
    · have : run (.lit 43) (i, c :: t) = [] := by simp [run, stepClass, hc]
      rw [run, this]
      split
      · rename_i heq
        simp at heq
        exact absurd heq.1 hc
      · rfl

theorem run_phoneRegex_zero (s : List Nat) :
    (run phoneRegex (0, s)).isEmpty = !e164Shape s := by
  have hcat : run phoneRegex (0, s) = (run (.quest (.lit 43)) (0, s)).flatMap (run phoneDigits) := by
    simp [phoneRegex, phoneDigits, run]
  rw [hcat, run_quest_plus]
  unfold e164Shape
  split
  · rename_i t
    have hn : digitString 2 15 (43 :: t) = false := by simp [digitString, isNonzeroDigit]
    have h2 : run phoneDigits (0, 43 :: t) = [] := (run_phoneDigits_nil_iff 0 _).2 hn
    rw [List.flatMap_cons, List.flatMap_cons, List.flatMap_nil, h2, List.append_nil,
      List.append_nil, run_phoneDigits]
  · rw [List.flatMap_cons, List.flatMap_nil, List.append_nil, run_phoneDigits]

theorem run_phoneRegex_succ (i : Nat) (t : List Nat) : run phoneRegex (i + 1, t) = [] := by
  simp [phoneRegex, run]

/-- Matching against `phoneRegex` is exactly the E.164 shape test. -/
theorem matchString_phoneRegex (s : List Nat) : MatchString phoneRegex s = e164Shape s := by
  unfold MatchString
  rw [List.range_succ_eq_map, List.any_cons, List.any_map]
  have h : ((List.range s.length).any
      ((fun i => !(run phoneRegex (i, s.drop i)).isEmpty) ∘ Nat.succ)) = false := by
    rw [List.any_eq_false]
    intro x _
    simp [run_phoneRegex_succ]
  rw [h, Bool.or_false, List.drop_zero, run_phoneRegex_zero]
  simp

/-! ## Facts about `Valid` -/

/-- The code and the ordered checks of the specification agree on every string. -/
theorem valid_eq_validSpec (s : List Nat) : Valid s = some (ValidSpec s) := by
  unfold Valid ValidSpec
  rw [matchString_phoneRegex]
  by_cases h1 : s.length < 10 ∨ s.length > 20 ∨ e164Shape s = false
  · have : (decide (s.length < 10) || decide (s.length > 20) || !e164Shape s) = true := by
      rcases h1 with h | h | h <;> simp [h]
    rw [if_pos this, if_pos h1]
    rfl
  · have : ¬ (decide (s.length < 10) || decide (s.length > 20) || !e164Shape s) = true := by
      intro h
      apply h1
      simp only [Bool.or_eq_true, decide_eq_true_eq, Bool.not_eq_true'] at h
      tauto
    rw [if_neg this, if_neg h1]
    match s, h1 with
    | [], h1 => simp at h1
    | [_], h1 => simp at h1
    | c :: d :: t, _ =>
      have hb : ∀ a b : Nat, (a != b) = !decide (a = b) := by
        intro a b
        by_cases h : a = b <;> simp [h]
      by_cases e11 : t.length = 9 <;> by_cases e12 : t.length = 10 <;>
        by_cases c49 : c = 49 <;> by_cases c43 : c = 43 <;> by_cases d49 : d = 49 <;>
        simp [andThen, errInternational, errPlus, hb, e11, e12, c49, c43, d49]

theorem e164Shape_plus (d : List Nat) : e164Shape (43 :: d) = digitString 2 15 d := rfl

theorem e164Shape_of_ne_plus (c : Nat) (t : List Nat) (hc : c ≠ 43) :
    e164Shape (c :: t) = digitString 2 15 (c :: t) := by
  unfold e164Shape
  split
  · rename_i heq
    simp at heq
    exact absurd heq.1 hc
  · rfl

/-- The strings on which the ordered checks succeed. -/
theorem validSpec_fst_iff (s : List Nat) :
    (ValidSpec s).1 = true ↔
      ∃ d, s = 43 :: d ∧ digitString 2 15 d = true ∧ 9 ≤ d.length ∧ d.length ≠ 10 ∧
        (d.length = 11 → d.head? = some 49) := by
  have hlen : ∀ d : List Nat, digitString 2 15 d = true → d.length ≤ 15 := by
    intro d hd
    simp only [digitString, Bool.and_eq_true, decide_eq_true_eq] at hd
    omega
  unfold ValidSpec
  split_ifs with h1 h2 h3 h4
  · simp only [Bool.false_eq_true, false_iff]
    rintro ⟨d, rfl, hd, h9, -, -⟩
    have := hlen d hd
    rw [e164Shape_plus, hd] at h1
    simp only [List.length_cons, Bool.true_eq_false, or_false] at h1
    omega
  · simp only [Bool.false_eq_true, false_iff]
    rintro ⟨d, rfl, -, -, h10, -⟩
    simp only [List.length_cons] at h2
    omega
  · simp only [Bool.false_eq_true, false_iff]
    rintro ⟨d, rfl, -, -, -, -⟩
    simp at h3
  · simp only [Bool.false_eq_true, false_iff]
    rintro ⟨d, rfl, -, -, -, h11⟩
    obtain ⟨hl, hne⟩ := h4
    simp only [List.length_cons] at hl
    apply hne
    rw [List.getElem?_cons_succ, ← List.head?_eq_getElem?]
    exact h11 (by omega)
  · simp only [true_iff]
    cases s with
    | nil => simp at h3
    | cons c d =>
      simp only [List.getElem?_cons_zero, ne_eq, Option.some.injEq, not_not] at h3
      subst h3
      rw [e164Shape_plus] at h1
      simp only [List.length_cons, not_or, not_lt, Bool.not_eq_false] at h1 h2 h4
      refine ⟨d, rfl, h1.2.2, by omega, ?_, ?_⟩
      · intro h
        apply h2
        simp [h]
      · intro h
        by_contra hne
        apply h4
        refine ⟨by omega, ?_⟩
        rw [List.getElem?_cons_succ, ← List.head?_eq_getElem?]
        exact hne

theorem validSpec_eq_of_fst (s : List Nat) (h : (ValidSpec s).1 = true) :
    ValidSpec s = (true, none) := by
  unfold ValidSpec at h ⊢
  split_ifs at h ⊢
  simp_all

/-- The strings that `Valid` accepts. -/
theorem valid_fst_iff (s : List Nat) :
    (Valid s).map Prod.fst = some true ↔
      ∃ d, s = 43 :: d ∧ digitString 2 15 d = true ∧ 9 ≤ d.length ∧ d.length ≠ 10 ∧
        (d.length = 11 → d.head? = some 49) := by
  rw [valid_eq_validSpec, Option.map_some', Option.some.injEq]
  exact validSpec_fst_iff s

theorem digitString_parts (lo hi : Nat) (d : List Nat) :
    digitString lo hi d = true ↔
      lo ≤ d.length ∧ d.length ≤ hi ∧ d.all isDigit = true ∧
        d.head?.map isNonzeroDigit = some true := by
  cases d with
  | nil => simp [digitString]
  | cons c t =>
    simp only [digitString, Bool.and_eq_true, decide_eq_true_eq, List.head?_cons,
      Option.map_some', Option.getD_some, Option.some.injEq]
    tauto

/-! ## The validator: claims -/

/-- C1: on every string `Valid` returns what the five ordered checks of the
specification return, the first failing check deciding the result; in particular
`3105555555` gets the missing-plus error and `23105555555`, `+23105555555` the
unsupported-international error. -/
theorem valid_refines_ordered_checks :
    (∀ s : List Nat, Valid s = some (ValidSpec s)) ∧
      Valid (ascii "3105555555") =
        some (false, some "first character in phone number must be +") ∧
      Valid (ascii "23105555555") = some (false, some "unsupported international number") ∧
      Valid (ascii "+23105555555") = some (false, some "unsupported international number") :=
  ⟨valid_eq_validSpec, by decide, by decide, by decide⟩

/-- C2: every 12-byte string made of `+1` followed by exactly ten decimal digits
is accepted: `Valid` returns `(true, nil)`. -/
theorem valid_accepts_plus_one_ten_digits (d : List Nat) (hlen : d.length = 10)
    (hdig : d.all isDigit = true) : Valid (43 :: 49 :: d) = some (true, none) := by
  rw [valid_eq_validSpec]
  congr 1
  apply validSpec_eq_of_fst
  rw [validSpec_fst_iff]
  refine ⟨49 :: d, rfl, ?_, ?_, ?_, ?_⟩
  · rw [digitString_parts]
    refine ⟨?_, ?_, ?_, ?_⟩
    · simp [hlen]
    · simp [hlen]
    · rw [List.all_cons, hdig]; rfl
    · rfl
  · simp [hlen]
  · simp [hlen]
  · intro _; rfl

theorem valid_accepts_plus_one_ten_digits_witness :
    Valid (ascii "+13105555555") = some (true, none) :=
  valid_accepts_plus_one_ten_digits (ascii "3105555555") (by decide) (by decide)

/-- C3: a string on which `Valid` returns `valid = true` begins with `+`, what
follows the `+` is between 1 and 15 decimal digits of which the first is `1`-`9`,
and the whole string has length between 10 and 20. -/
theorem valid_true_shape (s : List Nat) (h : (Valid s).map Prod.fst = some true) :
    s[0]? = some 43 ∧
      (∃ d, s = 43 :: d ∧ 1 ≤ d.length ∧ d.length ≤ 15 ∧ d.all isDigit = true ∧
        d.head?.map isNonzeroDigit = some true) ∧
      10 ≤ s.length ∧ s.length ≤ 20 := by
  obtain ⟨d, rfl, hd, h9, -, -⟩ := (valid_fst_iff s).1 h
  obtain ⟨-, h15, hall, hhead⟩ := (digitString_parts 2 15 d).1 hd
  refine ⟨List.getElem?_cons_zero, ⟨d, rfl, by omega, h15, hall, hhead⟩, ?_, ?_⟩
  · simp only [List.length_cons]; omega
  · simp only [List.length_cons]; omega

theorem valid_true_shape_witness :
    (ascii "+13105555555")[0]? = some 43 ∧
      (∃ d, ascii "+13105555555" = 43 :: d ∧ 1 ≤ d.length ∧ d.length ≤ 15 ∧
        d.all isDigit = true ∧ d.head?.map isNonzeroDigit = some true) ∧
      10 ≤ (ascii "+13105555555").length ∧ (ascii "+13105555555").length ≤ 20 :=
  valid_true_shape (ascii "+13105555555") (by decide)

/-- C4, as stated, fails: `+442071838750` is accepted although it is not a bare
10- or 11-digit number and the byte after its `+` is `4`, not `1`. -/
theorem country_code_not_limited_to_one :
    (Valid (ascii "+442071838750")).map Prod.fst = some true ∧
      ¬ (((ascii "+442071838750").all isDigit = true ∧
            ((ascii "+442071838750").length = 10 ∨ (ascii "+442071838750").length = 11)) ∨
          (ascii "+442071838750")[1]? = some 49) := by
  decide

/-- C4, amended: the country code is limited only through the checks at length
11 and 12.  An accepted string begins with `+` and either has `1` right after the
`+` or has length 10, 13, 14, 15 or 16; the error "unsupported international
number" is returned exactly for a correctly shaped string that has length 11 and
does not begin with `1`, or has length 12, begins with `+` and does not continue
with `1`; and a correctly shaped string that begins with `+` and has length 10,
13, 14, 15 or 16 is accepted whatever its first digit. -/
theorem valid_country_code_checked_at_eleven_and_twelve (s : List Nat) :
    ((Valid s).map Prod.fst = some true →
        s[0]? = some 43 ∧
          (s[1]? = some 49 ∨ s.length = 10 ∨ s.length = 13 ∨ s.length = 14 ∨
            s.length = 15 ∨ s.length = 16)) ∧
      (Valid s = some (false, some "unsupported international number") ↔
        e164Shape s = true ∧
          ((s.length = 11 ∧ s[0]? ≠ some 49) ∨
            (s.length = 12 ∧ s[0]? = some 43 ∧ s[1]? ≠ some 49))) ∧
      (e164Shape s = true → s[0]? = some 43 →
        (s.length = 10 ∨ s.length = 13 ∨ s.length = 14 ∨ s.length = 15 ∨ s.length = 16) →
        Valid s = some (true, none)) := by
  refine ⟨?_, ?_, ?_⟩
  · intro h
    obtain ⟨d, rfl, hd, h9, h10, h11⟩ := (valid_fst_iff s).1 h
    obtain ⟨-, h15, -, -⟩ := (digitString_parts 2 15 d).1 hd
    refine ⟨List.getElem?_cons_zero, ?_⟩
    by_cases e : d.length = 11
    · left
      rw [List.getElem?_cons_succ, ← List.head?_eq_getElem?]
      exact h11 e
    · right
      simp only [List.length_cons]
      omega
  · rw [valid_eq_validSpec]
    unfold ValidSpec
    by_cases hs : e164Shape s = true
    · by_cases hlo : s.length < 10
      · rw [if_pos (Or.inl hlo)]
        simp only [Option.some.injEq, Prod.mk.injEq, true_and, hs]
        constructor
        · intro h; exact absurd h (by decide)
        · rintro (⟨h, -⟩ | ⟨h, -⟩) <;> omega
      · by_cases hhi : s.length > 20
        · rw [if_pos (Or.inr (Or.inl hhi))]
          simp only [Option.some.injEq, Prod.mk.injEq, true_and, hs]
          constructor
          · intro h; exact absurd h (by decide)
          · rintro (⟨h, -⟩ | ⟨h, -⟩) <;> omega
        · have c1 : ¬ (s.length < 10 ∨ s.length > 20 ∨ e164Shape s = false) := by
            rw [hs]; simp only [Bool.true_eq_false, or_false]; tauto
          rw [if_neg c1]
          by_cases c2 : s.length = 11 ∧ s[0]? ≠ some 49
          · rw [if_pos c2]
            simp only [hs, true_and, true_iff]
            exact Or.inl c2
          · rw [if_neg c2]
            by_cases c3 : s[0]? ≠ some 43
            · rw [if_pos c3]
              simp only [Option.some.injEq, Prod.mk.injEq, true_and, hs]
              constructor
              · intro h; exact absurd h (by decide)
              · rintro (h | ⟨-, h, -⟩)
                · exact absurd h c2
                · exact absurd h c3
            · rw [if_neg c3]
              by_cases c4 : s.length = 12 ∧ s[1]? ≠ some 49
              · rw [if_pos c4]
                simp only [hs, true_and, true_iff]
                exact Or.inr ⟨c4.1, not_not.1 c3, c4.2⟩
              · rw [if_neg c4]
                simp only [Option.some.injEq, Prod.mk.injEq, Bool.true_eq_false, false_and,
                  false_iff, hs, true_and]
                rintro (h | ⟨h, -, h1⟩)
                · exact c2 h
                · exact c4 ⟨h, h1⟩
    · have c1 : s.length < 10 ∨ s.length > 20 ∨ e164Shape s = false :=
        Or.inr (Or.inr (by simpa using hs))
      rw [if_pos c1]
      simp only [Option.some.injEq, Prod.mk.injEq, true_and, hs, Bool.false_eq_true,
        false_and, iff_false]
      decide
  · intro hs h0 hlen
    have hle : s.length ≤ 20 := by omega
    have c1 : ¬ (s.length < 10 ∨ s.length > 20 ∨ e164Shape s = false) := by
      rw [hs]; simp only [Bool.true_eq_false, or_false]; omega
    have c2 : ¬ (s.length = 11 ∧ s[0]? ≠ some 49) := by
      rintro ⟨h, -⟩; omega
    have c4 : ¬ (s.length = 12 ∧ s[1]? ≠ some 49) := by
      rintro ⟨h, -⟩; omega
    rw [valid_eq_validSpec]
    unfold ValidSpec
    rw [if_neg c1, if_neg c2, if_neg (not_not.2 h0), if_neg c4]

theorem valid_country_code_checked_at_eleven_and_twelve_witness :
    ((ascii "+13105555555")[0]? = some 43 ∧
        ((ascii "+13105555555")[1]? = some 49 ∨ (ascii "+13105555555").length = 10 ∨
          (ascii "+13105555555").length = 13 ∨ (ascii "+13105555555").length = 14 ∨
          (ascii "+13105555555").length = 15 ∨ (ascii "+13105555555").length = 16)) ∧
      Valid (ascii "23105555555") = some (false, some "unsupported international number") ∧
      Valid (ascii "+23105555555") = some (false, some "unsupported international number") ∧
      Valid (ascii "+442071838750") = some (true, none) :=
  ⟨(valid_country_code_checked_at_eleven_and_twelve (ascii "+13105555555")).1 (by decide),
    (valid_country_code_checked_at_eleven_and_twelve (ascii "23105555555")).2.1.2 (by decide),
    (valid_country_code_checked_at_eleven_and_twelve (ascii "+23105555555")).2.1.2 (by decide),
    (valid_country_code_checked_at_eleven_and_twelve (ascii "+442071838750")).2.2
      (by decide) (by decide) (by decide)⟩

/-- C5: `Valid` returns `valid = true` exactly when the error is `nil`, and when
`valid = false` the error is one of the three fixed reasons. -/
theorem valid_error_iff_invalid (s : List Nat) :
    ∃ v e, Valid s = some (v, e) ∧ (v = true ↔ e = none) ∧
      (v = false →
        e = some "invalid phone number format: must have E.164 formatting" ∨
        e = some "unsupported international number" ∨
        e = some "first character in phone number must be +") := by
  refine ⟨(ValidSpec s).1, (ValidSpec s).2, valid_eq_validSpec s, ?_, ?_⟩
  · unfold ValidSpec
    split_ifs <;> simp
  · unfold ValidSpec
    split_ifs <;> simp

/-- C6: `Valid` never panics.  On every string it returns a result; a string
shorter than 10 bytes, where an index could be out of range, is answered by the
first check with the invalid-format error; so are the empty string and every
string of length 1. -/
theorem valid_never_panics :
    (∀ s : List Nat, Valid s ≠ none) ∧
      (∀ s : List Nat, s.length < 10 →
        Valid s = some (false, some "invalid phone number format: must have E.164 formatting")) ∧
      Valid [] = some (false, some "invalid phone number format: must have E.164 formatting") ∧
      (∀ c : Nat,
        Valid [c] = some (false, some "invalid phone number format: must have E.164 formatting")) := by
  have short : ∀ s : List Nat, s.length < 10 →
      Valid s = some (false, some "invalid phone number format: must have E.164 formatting") := by
    intro s hs
    rw [valid_eq_validSpec]
    unfold ValidSpec
    rw [if_pos (Or.inl hs)]
  refine ⟨?_, short, short [] (by decide), fun c => short [c] (by simp)⟩
  intro s
  rw [valid_eq_validSpec]
  exact Option.some_ne_none _

theorem valid_never_panics_witness :
    Valid (ascii "+1") =
      some (false, some "invalid phone number format: must have E.164 formatting") :=
  valid_never_panics.2.1 (ascii "+1") (by decide)

/-- C9, as stated, fails: `+3105555555` has length 11, gets the error
"unsupported international number", and its first byte is `+`. -/
theorem eleven_check_fires_with_plus :
    (ascii "+3105555555").length = 11 ∧
      Valid (ascii "+3105555555") = some (false, some "unsupported international number") ∧
      (ascii "+3105555555")[0]? = some 43 := by
  decide

/-- C9, amended: a string of length 11 gets the error "unsupported international
number" exactly when it has the E.164 shape and its first byte is not `1`; that
first byte is then `+` or a digit from `2` to `9`. -/
theorem eleven_check_first_not_one (s : List Nat) (hlen : s.length = 11) :
    (Valid s = some (false, some "unsupported international number") ↔
        e164Shape s = true ∧ s[0]? ≠ some 49) ∧
      (Valid s = some (false, some "unsupported international number") →
        s[0]? = some 43 ∨ ∃ c, s[0]? = some c ∧ 50 ≤ c ∧ c ≤ 57) := by
  have main : Valid s = some (false, some "unsupported international number") ↔
      e164Shape s = true ∧ s[0]? ≠ some 49 := by
    rw [valid_eq_validSpec]
    unfold ValidSpec
    by_cases hs : e164Shape s = true
    · have c1 : ¬ (s.length < 10 ∨ s.length > 20 ∨ e164Shape s = false) := by
        rw [hlen, hs]; simp
      rw [if_neg c1]
      by_cases h0 : s[0]? = some 49
      · have c2 : ¬ (s.length = 11 ∧ s[0]? ≠ some 49) := fun h => h.2 h0
        have c3 : s[0]? ≠ some 43 := by rw [h0]; simp
        rw [if_neg c2, if_pos c3]
        simp [h0]
      · rw [if_pos ⟨hlen, h0⟩]
        simp [hs, h0]
    · have c1 : s.length < 10 ∨ s.length > 20 ∨ e164Shape s = false :=
        Or.inr (Or.inr (by simpa using hs))
      rw [if_pos c1]
      simp [hs]
  refine ⟨main, ?_⟩
  intro h
  obtain ⟨hs, h0⟩ := main.1 h
  cases s with
  | nil => simp at hlen
  | cons c t =>
    by_cases hc : c = 43
    · left; simp [hc]
    · right
      rw [e164Shape_of_ne_plus c t hc, digitString_parts] at hs
      obtain ⟨-, -, -, hhead⟩ := hs
      simp only [List.head?_cons, Option.map_some', Option.some.injEq, isNonzeroDigit,
        Bool.and_eq_true, decide_eq_true_eq] at hhead
      simp only [List.getElem?_cons_zero, ne_eq, Option.some.injEq] at h0
      exact ⟨c, List.getElem?_cons_zero, by omega, hhead.2⟩

theorem eleven_check_first_not_one_witness :
    (Valid (ascii "23105555555") = some (false, some "unsupported international number") ↔
        e164Shape (ascii "23105555555") = true ∧ (ascii "23105555555")[0]? ≠ some 49) ∧
      (Valid (ascii "23105555555") = some (false, some "unsupported international number") →
        (ascii "23105555555")[0]? = some 43 ∨
          ∃ c, (ascii "23105555555")[0]? = some c ∧ 50 ≤ c ∧ c ≤ 57) :=
  eleven_check_first_not_one (ascii "23105555555") (by decide)

/-- C10: the accepted set.  `Valid` returns `true` exactly on `+` followed by `n`
decimal digits whose first is `1`-`9`, with `n` one of 9, 12, 13, 14, 15, or
`n = 11` and first digit `1`.  Hence no string of length 11 and no string longer
than 16 bytes is accepted. -/
theorem valid_true_iff_accepted_set :
    (∀ s : List Nat, (Valid s).map Prod.fst = some true ↔
      ∃ d, s = 43 :: d ∧ d.all isDigit = true ∧ d.head?.map isNonzeroDigit = some true ∧
        (d.length = 9 ∨ d.length = 12 ∨ d.length = 13 ∨ d.length = 14 ∨ d.length = 15 ∨
          (d.length = 11 ∧ d.head? = some 49))) ∧
      (∀ s : List Nat, s.length = 11 → (Valid s).map Prod.fst ≠ some true) ∧
      (∀ s : List Nat, 16 < s.length → (Valid s).map Prod.fst ≠ some true) := by
  have acc : ∀ s : List Nat, (Valid s).map Prod.fst = some true ↔
      ∃ d, s = 43 :: d ∧ d.all isDigit = true ∧ d.head?.map isNonzeroDigit = some true ∧
        (d.length = 9 ∨ d.length = 12 ∨ d.length = 13 ∨ d.length = 14 ∨ d.length = 15 ∨
          (d.length = 11 ∧ d.head? = some 49)) := by
    intro s
    rw [valid_fst_iff]
    constructor
    · rintro ⟨d, rfl, hd, h9, h10, h11⟩
      obtain ⟨-, h15, hall, hhead⟩ := (digitString_parts 2 15 d).1 hd
      refine ⟨d, rfl, hall, hhead, ?_⟩
      by_cases e : d.length = 11
      · exact Or.inr (Or.inr (Or.inr (Or.inr (Or.inr ⟨e, h11 e⟩))))
      · omega
    · rintro ⟨d, rfl, hall, hhead, hn⟩
      refine ⟨d, rfl, (digitString_parts 2 15 d).2 ⟨by omega, by omega, hall, hhead⟩,
        by omega, by omega, ?_⟩
      intro e
      rcases hn with h | h | h | h | h | h
      · omega
      · omega
      · omega
      · omega
      · omega
      · exact h.2
  refine ⟨acc, ?_, ?_⟩
  · intro s hlen h
    obtain ⟨d, rfl, -, -, hn⟩ := (acc s).1 h
    simp only [List.length_cons] at hlen
    omega
  · intro s hlen h
    obtain ⟨d, rfl, -, -, hn⟩ := (acc s).1 h
    simp only [List.length_cons] at hlen
    omega

theorem valid_true_iff_accepted_set_witness :
    (Valid (ascii "+3105555555")).map Prod.fst ≠ some true :=
  valid_true_iff_accepted_set.2.1 (ascii "+3105555555") (by decide)

/-! ## The webhook handler: claims -/

theorem fallbackText_length : fallbackText.length ≠ 0 := by decide

/-- The value the handler hands to `c.XML` always carries the reply text in its
`Message` field: the branch for the empty reply builds the same value. -/
theorem handlerTwilio_resp (pt : List Nat × Option String)
    (marshal : TwilioResp → Except String (List Nat)) :
    (handlerTwilio pt marshal).resp =
      { Message := match pt.2 with
          | some _ => fallbackText
          | none => pt.1 } := by
  unfold handlerTwilio
  generalize (match pt.2 with | some _ => fallbackText | none => pt.1) = ret
  have hr : (if ret.length = 0 then TwilioResp.zero else { Message := ret }) =
      ({ Message := ret } : TwilioResp) := by
    by_cases h : ret.length = 0
    · rw [if_pos h, List.length_eq_zero.1 h]; rfl
    · rw [if_neg h]
  simp only [hr]
  cases hm : contextXML marshal StatusOK { Message := ret } with
  | mk w e => cases e <;> rfl

theorem xmlMarshal_fallback :
    xmlMarshal escapeText { Message := fallbackText } =
      .ok (ascii ("<Response><Message>Something went wrong with my wiring... " ++
        "I&#39;ll get that fixed up soon.</Message></Response>")) := by
  unfold xmlMarshal
  exact congrArg Except.ok (by decide)

/-- C7, evaluated on the code: when processing returns the empty reply without
error, the handler hands `c.XML` the value whose `Message` field is the empty
string; whatever the escaping of character data, the marshalled element opens
with `<Response><Message>`; it is `<Response><Message></Message></Response>`, and
the body written with status 200 is the XML declaration followed by that element,
not the declaration followed by `<Response></Response>`. -/
theorem handler_empty_reply_keeps_message_element :
    (handlerTwilio ([], none) (xmlMarshal escapeText)).resp = { Message := [] } ∧
      (∀ esc : List Nat → List Nat,
        xmlMarshal esc { Message := [] } =
          .ok (ascii "<Response><Message>" ++ esc [] ++ ascii "</Message></Response>")) ∧
      xmlMarshal escapeText { Message := [] } =
        .ok (ascii "<Response><Message></Message></Response>") ∧
      (handlerTwilio ([], none) (xmlMarshal escapeText)).written =
        some { status := 200,
               body := ascii ("<?xml version=\"1.0\" encoding=\"UTF-8\"?>\n" ++
                 "<Response><Message></Message></Response>") } ∧
      (handlerTwilio ([], none) (xmlMarshal escapeText)).written ≠
        some { status := 200,
               body := ascii ("<?xml version=\"1.0\" encoding=\"UTF-8\"?>\n" ++
                 "<Response></Response>") } ∧
      (handlerTwilio ([], none) (xmlMarshal escapeText)).err = none := by
  refine ⟨rfl, ?_, ?_, ?_, ?_, rfl⟩
  · intro esc
    simp [xmlMarshal, marshalElement, marshalField, ascii]
  · unfold xmlMarshal
    exact congrArg Except.ok (by decide)
  · decide
  · decide

/-- C8: when processing returns an error, whatever reply text comes with it, the
handler hands `c.XML` status 200 and, as `Message`, exactly the text "Something
went wrong with my wiring... I'll get that fixed up soon."; when marshalling
succeeds the response is written with status 200 and the handler returns `nil`;
the handler returns an error exactly when marshalling fails, and that error wraps
the marshalling error, never the processing error.  With the marshaller of
`encoding/xml` the body written is the XML declaration followed by the `Response`
element whose `Message` holds the text (its apostrophe as a character
reference). -/
theorem handler_absorbs_processing_error (ret : List Nat) (e : String)
    (marshal : TwilioResp → Except String (List Nat)) :
    (handlerTwilio (ret, some e) marshal).resp =
        { Message := ascii "Something went wrong with my wiring... I'll get that fixed up soon." } ∧
      (∀ b, marshal
          { Message := ascii "Something went wrong with my wiring... I'll get that fixed up soon." }
            = .ok b →
        (handlerTwilio (ret, some e) marshal).written =
          some { status := 200,
                 body := ascii "<?xml version=\"1.0\" encoding=\"UTF-8\"?>\n" ++ b } ∧
        (handlerTwilio (ret, some e) marshal).err = none) ∧
      (∀ m, marshal
          { Message := ascii "Something went wrong with my wiring... I'll get that fixed up soon." }
            = .error m →
        (handlerTwilio (ret, some e) marshal).written = none ∧
        (handlerTwilio (ret, some e) marshal).err = some (.jsonError m)) ∧
      ((handlerTwilio (ret, some e) marshal).err ≠ none ↔
        ∃ m, marshal
          { Message := ascii "Something went wrong with my wiring... I'll get that fixed up soon." }
            = .error m) ∧
      (handlerTwilio (ret, some e) (xmlMarshal escapeText)).written =
        some { status := 200,
               body := ascii ("<?xml version=\"1.0\" encoding=\"UTF-8\"?>\n" ++
                 "<Response><Message>Something went wrong with my wiring... " ++
                 "I&#39;ll get that fixed up soon.</Message></Response>") } ∧
      (handlerTwilio (ret, some e) (xmlMarshal escapeText)).err = none := by
  have hlit : ascii "Something went wrong with my wiring... I'll get that fixed up soon." =
      fallbackText := rfl
  rw [hlit]
  have hne : ¬ fallbackText = [] := fun h => fallbackText_length (by rw [h]; rfl)
  have hok : ∀ (mar : TwilioResp → Except String (List Nat)) (b : List Nat),
      mar { Message := fallbackText } = .ok b →
      (handlerTwilio (ret, some e) mar).written =
        some { status := 200, body := xmlHeader ++ b } ∧
      (handlerTwilio (ret, some e) mar).err = none := by
    intro mar b hb
    simp [handlerTwilio, hne, contextXML, hb, StatusOK]
  have herr : ∀ m, marshal { Message := fallbackText } = .error m →
      (handlerTwilio (ret, some e) marshal).written = none ∧
      (handlerTwilio (ret, some e) marshal).err = some (.jsonError m) := by
    intro m hm
    simp [handlerTwilio, hne, contextXML, hm]
  have hwire := hok (xmlMarshal escapeText) _ xmlMarshal_fallback
  refine ⟨handlerTwilio_resp (ret, some e) marshal, hok marshal, herr, ?_, ?_, hwire.2⟩
  · cases hm : marshal { Message := fallbackText } with
    | ok b => simp [(hok marshal b hm).2]
    | error m => simp [(herr m hm).2]
  · rw [hwire.1]
    decide

theorem handler_absorbs_processing_error_witness :
    (handlerTwilio (ascii "partial", some "boom") (xmlMarshal escapeText)).written =
        some { status := 200,
               body := ascii ("<?xml version=\"1.0\" encoding=\"UTF-8\"?>\n" ++
                 "<Response><Message>Something went wrong with my wiring... " ++
                 "I&#39;ll get that fixed up soon.</Message></Response>") } ∧
      (handlerTwilio (ascii "partial", some "boom") (xmlMarshal escapeText)).err = none :=
  (handler_absorbs_processing_error (ascii "partial") "boom" (xmlMarshal escapeText)).2.2.2.2

end Twilio
